import Mathlib

/-!
Verification of the AnimalShelter repository (CS-499 capstone artifact).

This file gives a shallow embedding of the enhanced `AnimalShelter` class
(`AnimalShelter_enhanced.py`) and proves the contract claims about it.

Modelling decisions:
* A MongoDB document is an association list `Doc := List (String × Value)`
  with unique keys maintained by `setKey` (Python dict assignment).
* `Value` covers the value kinds the repository manipulates: strings,
  integers, UTC timestamps (as `Nat` instants) and null.
* The external collaborator (MongoDB) is modelled by its observable
  behaviour: `insert_one` appends, `find` filters by equality on the
  query fields, `update_many` applies a field merge, `delete_many`
  filters out matches.  Collaborator-chosen data (acknowledgment flag,
  generated object id, the current UTC instant, whether the audit-store
  write fails) are explicit parameters of each operation.
* Python `ValueError` raised by the validation helpers is
  `RepoError.validationError`; a raising path is an `Except.error` result,
  so an error result by construction leaves the collection unchanged.
* Python mutates the caller-supplied `data`/`new_values` dicts in place
  (the inserted document *is* the caller's object); the model therefore
  returns the caller-visible mapping after the call alongside the result.
-/

set_option autoImplicit false

namespace AnimalShelter

/-- A BSON-ish value as used by the repository. -/
inductive Value where
  | null : Value
  | str : String → Value
  | int : Int → Value
  | ts : Nat → Value
  deriving DecidableEq

/-- A document / Python dict: association list with unique keys. -/
abbrev Doc := List (String × Value)

/-- A Python argument as passed to the repository: the code checks
`isinstance(value, dict)` at run time, so non-dict arguments must be
representable. -/
inductive PyArg where
  | dict : Doc → PyArg
  | list : List Value → PyArg
  | str : String → PyArg
  deriving DecidableEq

/-- Errors surfaced to the caller.  `validationError` is Python's
`ValueError` raised by the validation helpers. -/
inductive RepoError where
  | validationError : String → RepoError
  deriving DecidableEq

/-- Dict lookup (`d.get(k)` / `d[k]`): value at the first occurrence of
the key, `none` when absent. -/
def dget : Doc → String → Option Value
  | [], _ => none
  | (k1, v1) :: rest, k => if k1 = k then some v1 else dget rest k

/-- The keys of a document, in order. -/
def keysOf (d : Doc) : List String := d.map Prod.fst

/-- Python `k in d`. -/
def hasKey (d : Doc) (k : String) : Bool := decide (k ∈ keysOf d)

/-- Python dict assignment `d[k] = v`: replace in place when the key is
present, append otherwise. -/
def setKey : Doc → String → Value → Doc
  | [], k, v => [(k, v)]
  | (k1, v1) :: rest, k, v =>
    if k1 = k then (k, v) :: rest else (k1, v1) :: setKey rest k v

/-- Mongo `$set` document merge: assign every field of `nv` in order. -/
def applySet (nv : Doc) (d : Doc) : Doc :=
  nv.foldl (fun acc kv => setKey acc kv.1 kv.2) d

/-- Equality-filter matching: a document matches the query when every
query field is present with the queried value (the only filter form the
repository's claims exercise; filters are otherwise opaque pass-through). -/
def matchesDoc (q : Doc) (d : Doc) : Bool :=
  q.all (fun kv => decide (dget d kv.1 = some kv.2))

/-- One audit document, `{"action": ..., "details": ..., "ts": ...}`,
held as a structure because `details` is itself a mapping. -/
structure AuditEntry where
  action : String
  details : Doc
  ts : Nat
  deriving DecidableEq

/-- State of the two collections a repository instance owns. -/
structure ShelterState where
  animals : List Doc
  audits : List AuditEntry
  deriving DecidableEq

/-- `AnimalShelter._require_dict`: reject non-dicts, and empty dicts
unless `allow_empty`. -/
def _require_dict (value : PyArg) (name : String) (allow_empty : Bool) :
    Except RepoError Doc :=
  match value with
  | PyArg.dict d =>
    if !allow_empty && d.isEmpty then
      Except.error (RepoError.validationError (name ++ " must be a non-empty dict"))
    else
      Except.ok d
  | _ => Except.error (RepoError.validationError (name ++ " must be a dict"))

/-- The required-at-creation fields of an animal record. -/
def requiredFields : List String := ["animal_id", "animal_type", "breed"]

/-- The required fields absent from `data`, in order. -/
def requiredMissing (data : Doc) (required : List String) : List String :=
  required.filter (fun f => !(hasKey data f))

/-- `AnimalShelter._validate_required_fields`. -/
def _validate_required_fields (data : Doc) (required : List String) :
    Except RepoError Unit :=
  let missing := requiredMissing data required
  if missing.isEmpty then Except.ok ()
  else
    Except.error (RepoError.validationError
      ("missing required field(s): " ++ String.intercalate ", " missing))

/-- Value stored for the optional `actor` argument in audit details. -/
def actorValue : Option String → Value
  | some a => Value.str a
  | none => Value.null

/-- `AnimalShelter._audit`: best-effort append of an audit document; a
failing audit-store write is swallowed and the audit collection is left
as it was. -/
def _audit (audits : List AuditEntry) (auditFails : Bool) (action : String)
    (details : Doc) (now : Nat) : List AuditEntry :=
  if auditFails then audits
  else audits ++ [AuditEntry.mk action details now]

/-- Result shape of `create`: `{"ok": bool, "inserted_id": str}`. -/
structure CreateResult where
  ok : Bool
  inserted_id : String
  deriving DecidableEq

/-- Result shape of `delete`: `{"ok": bool, "deleted": int}`. -/
structure DeleteResult where
  ok : Bool
  deleted : Nat
  deriving DecidableEq

/-- `AnimalShelter.delete(query, actor=..., confirm_delete=True)`.
`now`, `ack` and `auditFails` are the collaborator-chosen instant,
acknowledgment flag and audit-write outcome.  Mirrors the source: the
query is validated by `_require_dict` (empty dicts rejected) *before*
the `confirm_delete` guard is consulted. -/
def delete (st : ShelterState) (query : PyArg) (actor : Option String)
    (now : Nat) (ack : Bool) (confirm_delete : Bool) (auditFails : Bool) :
    Except RepoError (DeleteResult × ShelterState) :=
  match _require_dict query "query" false with
  | Except.error e => Except.error e
  | Except.ok q =>
    if q.isEmpty && confirm_delete then
      Except.error (RepoError.validationError
        "refusing to delete all documents; pass confirm_delete=False to override")
    else
      let deleted := (st.animals.filter (fun d => matchesDoc q d)).length
      let animals := st.animals.filter (fun d => !(matchesDoc q d))
      let audits := _audit st.audits auditFails "DELETE"
        [("actor", actorValue actor), ("deleted", Value.int (Int.ofNat deleted))] now
      Except.ok (DeleteResult.mk ack deleted, ShelterState.mk animals audits)

/-- `AnimalShelter.create(data, actor=None)`.  Validates the payload,
injects `created_timestamp = now` (the collaborator clock instant),
appends the document to the primary collection, best-effort audits, and
returns `{"ok": ack, "inserted_id": oid}` together with the
caller-visible `data` mapping after the call (Python mutates the
caller's dict in place: the inserted document is that same object). -/
def create (st : ShelterState) (data : PyArg) (actor : Option String)
    (now : Nat) (ack : Bool) (oid : String) (auditFails : Bool) :
    Except RepoError (CreateResult × Doc × ShelterState) :=
  match _require_dict data "data" false with
  | Except.error e => Except.error e
  | Except.ok doc0 =>
    match _validate_required_fields doc0 requiredFields with
    | Except.error e => Except.error e
    | Except.ok _ =>
      let doc := setKey doc0 "created_timestamp" (Value.ts now)
      let audits := _audit st.audits auditFails "CREATE"
        [("actor", actorValue actor), ("inserted_id", Value.str oid)] now
      Except.ok (CreateResult.mk ack oid, doc,
        ShelterState.mk (st.animals ++ [doc]) audits)

/-- BSON type rank (missing field sorts with null, below numbers,
strings, then dates), used to compare values of different kinds. -/
def valRank : Option Value → Nat
  | none => 0
  | some Value.null => 0
  | some (Value.int _) => 1
  | some (Value.str _) => 2
  | some (Value.ts _) => 3

/-- Mongo's cross-type value order: payload order within one kind,
type rank across kinds. -/
def valLeB : Option Value → Option Value → Bool
  | some (Value.int a), some (Value.int b) => decide (a ≤ b)
  | some (Value.str a), some (Value.str b) => decide (a ≤ b)
  | some (Value.ts a), some (Value.ts b) => decide (a ≤ b)
  | a, b => decide (valRank a ≤ valRank b)

/-- Insert a document into a list sorted by `le` (first position where it
fits). -/
def insertSorted (le : Doc → Doc → Bool) (d : Doc) : List Doc → List Doc
  | [] => [d]
  | x :: xs => if le d x then d :: x :: xs else x :: insertSorted le d xs

/-- Insertion sort of documents by `le`. -/
def sortDocs (le : Doc → Doc → Bool) : List Doc → List Doc
  | [] => []
  | d :: ds => insertSorted le d (sortDocs le ds)

/-- Comparator for `cursor.sort(f, order)`: ascending on the field value
unless a negative order is requested. -/
def docLe (f : String) (order : Int) (a b : Doc) : Bool :=
  if order < 0 then valLeB (dget b f) (dget a f) else valLeB (dget a f) (dget b f)

/-- Server-side sort of a result set by one field. -/
def sortByField (f : String) (order : Int) (docs : List Doc) : List Doc :=
  sortDocs (docLe f order) docs

/-- Mongo projection applied to one output document: inclusion mode when
any non-`_id` field is projected with 1 (keep exactly the projected
fields plus `_id` unless suppressed), exclusion mode otherwise (drop the
fields projected with 0). -/
def applyProjection (proj : Doc) (d : Doc) : Doc :=
  if proj.any (fun kv => decide (kv.1 ≠ "_id") && decide (kv.2 = Value.int 1)) then
    d.filter (fun kv =>
      if kv.1 = "_id" then decide (dget proj "_id" ≠ some (Value.int 0))
      else decide (dget proj kv.1 = some (Value.int 1)))
  else
    d.filter (fun kv => decide (dget proj kv.1 ≠ some (Value.int 0)))

/-- `AnimalShelter.read(query=None, projection=None, limit=0,
sort_field=None, sort_order=1)`.  A missing query means match-all; a
present query must be a dict but may be empty; the projection is used
only when it `isinstance`-checks as a dict; sort applies when
`sort_field` is truthy; the limit applies when positive. -/
def read (st : ShelterState) (query : Option PyArg) (projection : Option PyArg)
    (limit : Int) (sort_field : Option String) (sort_order : Int) :
    Except RepoError (List Doc) :=
  let qres : Except RepoError Doc :=
    match query with
    | none => Except.ok []
    | some v => _require_dict v "query" true
  match qres with
  | Except.error e => Except.error e
  | Except.ok q =>
    let docs := st.animals.filter (fun d => matchesDoc q d)
    let docs := match sort_field with
      | some f => if f = "" then docs else sortByField f sort_order docs
      | none => docs
    let docs := if 0 < limit then docs.take limit.toNat else docs
    let docs := match projection with
      | some (PyArg.dict p) => docs.map (applyProjection p)
      | _ => docs
    Except.ok docs

/-- Result shape of `update`:
`{"ok": bool, "matched": int, "modified": int, "upserted_id": str|None}`. -/
structure UpdateResult where
  ok : Bool
  matched : Nat
  modified : Nat
  upserted_id : Option String
  deriving DecidableEq

/-- `AnimalShelter.update(query, new_values, upsert=False, actor=None)`.
Validates both mappings, injects `last_modified_timestamp = now` into
`new_values` (the caller's dict, mutated in place and returned as the
middle component), then applies Mongo `update_many` with `$set`: a
field merge on every matching document, or — when upserting with no
match — insertion of a document built from the filter and the merge
fields. -/
def update (st : ShelterState) (query new_values : PyArg) (actor : Option String)
    (now : Nat) (ack : Bool) (upsert : Bool) (oid : String) (auditFails : Bool) :
    Except RepoError (UpdateResult × Doc × ShelterState) :=
  match _require_dict query "query" false with
  | Except.error e => Except.error e
  | Except.ok q =>
    match _require_dict new_values "new_values" false with
    | Except.error e => Except.error e
    | Except.ok nv0 =>
      let nv := setKey nv0 "last_modified_timestamp" (Value.ts now)
      let matched := (st.animals.filter (fun d => matchesDoc q d)).length
      if upsert && decide (matched = 0) then
        let newDoc := applySet nv q
        let audits := _audit st.audits auditFails "UPDATE"
          [("actor", actorValue actor), ("matched", Value.int 0),
           ("modified", Value.int 0)] now
        Except.ok (UpdateResult.mk ack 0 0 (some oid), nv,
          ShelterState.mk (st.animals ++ [newDoc]) audits)
      else
        let animals := st.animals.map
          (fun d => if matchesDoc q d then applySet nv d else d)
        let modified := (st.animals.filter
          (fun d => matchesDoc q d && decide (applySet nv d ≠ d))).length
        let audits := _audit st.audits auditFails "UPDATE"
          [("actor", actorValue actor), ("matched", Value.int (Int.ofNat matched)),
           ("modified", Value.int (Int.ofNat modified))] now
        Except.ok (UpdateResult.mk ack matched modified none, nv,
          ShelterState.mk animals audits)

/-- Result shape of `stats`:
`{"count": int, "latest_created_timestamp": instant|None}`. -/
structure StatsResult where
  count : Nat
  latest_created_timestamp : Option Value
  deriving DecidableEq

/-- `AnimalShelter.stats()`: the collection's document count and the
`created_timestamp` of the first document of
`find({}, {"created_timestamp": 1}).sort("created_timestamp", -1).limit(1)`
(or `None` on an empty result, via `next(iter(...), {}).get(...)`). -/
def stats (st : ShelterState) : StatsResult :=
  let latest := ((sortByField "created_timestamp" (-1)
      (st.animals.filter (fun d => matchesDoc [] d))).take 1).map
      (applyProjection [("created_timestamp", Value.int 1)])
  let latest_ts := match latest.head? with
    | some d => dget d "created_timestamp"
    | none => none
  StatsResult.mk st.animals.length latest_ts

/-- Everything the caller of `create` can observe: the returned result,
the caller's mapping after the call, and the primary collection — the
audit collection projected away. -/
def createView (r : Except RepoError (CreateResult × Doc × ShelterState)) :
    Except RepoError (CreateResult × Doc × List Doc) :=
  r.map (fun x => (x.1, x.2.1, x.2.2.animals))

/-- Caller-observable part of an `update` outcome (audit collection
projected away). -/
def updateView (r : Except RepoError (UpdateResult × Doc × ShelterState)) :
    Except RepoError (UpdateResult × Doc × List Doc) :=
  r.map (fun x => (x.1, x.2.1, x.2.2.animals))

/-- Caller-observable part of a `delete` outcome (audit collection
projected away). -/
def deleteView (r : Except RepoError (DeleteResult × ShelterState)) :
    Except RepoError (DeleteResult × List Doc) :=
  r.map (fun x => (x.1, x.2.animals))

end AnimalShelter

namespace AnimalShelter

/-- Looking up the key just assigned yields the assigned value. -/
theorem dget_setKey_self (d : Doc) (k : String) (v : Value) :
    dget (setKey d k v) k = some v := by
  induction d with
  | nil => simp [setKey, dget]
  | cons p rest ih =>
    obtain ⟨k1, v1⟩ := p
    by_cases h : k1 = k
    · simp [setKey, h, dget]
    · simp [setKey, h, dget, ih]

/-- Assigning one key leaves every other key's value unchanged. -/
theorem dget_setKey_ne (d : Doc) (k k2 : String) (v : Value) (h : k2 ≠ k) :
    dget (setKey d k v) k2 = dget d k2 := by
  induction d with
  | nil => simp [setKey, dget, Ne.symm h]
  | cons p rest ih =>
    obtain ⟨k1, v1⟩ := p
    by_cases h1 : k1 = k
    · subst h1
      simp [setKey, dget, Ne.symm h]
    · simp [setKey, h1, dget, ih]

/-- A non-empty list is not `isEmpty`. -/
theorem isEmpty_false_of_ne_nil {α : Type} {l : List α} (h : l ≠ []) :
    l.isEmpty = false := by
  cases l with
  | nil => exact absurd rfl h
  | cons a t => rfl

/-- C3: for every non-empty data mapping missing at least one of the
required fields `animal_id`, `animal_type`, `breed`, `create` fails with
a `ValidationError` whose message lists exactly the missing fields, and
the error return carries no successor state, so no insert reaches the
primary collection. -/
theorem create_missing_fields_rejected (st : ShelterState) (data : Doc)
    (actor : Option String) (now : Nat) (ack : Bool) (oid : String) (auditFails : Bool)
    (hne : data ≠ []) (hmiss : requiredMissing data requiredFields ≠ []) :
    create st (PyArg.dict data) actor now ack oid auditFails =
      Except.error (RepoError.validationError
        ("missing required field(s): " ++
          String.intercalate ", " (requiredMissing data requiredFields))) := by
  have h1 : data.isEmpty = false := isEmpty_false_of_ne_nil hne
  have h2 : (requiredMissing data requiredFields).isEmpty = false :=
    isEmpty_false_of_ne_nil hmiss
  simp [create, _require_dict, _validate_required_fields, h1, h2]

/-- C3 witness: a concrete record that has `animal_id` but lacks
`animal_type` and `breed` is rejected with both fields named. -/
theorem create_missing_fields_rejected_witness :
    create (ShelterState.mk [] []) (PyArg.dict [("animal_id", Value.str "A1")])
        none 0 true "oid0" false =
      Except.error (RepoError.validationError
        ("missing required field(s): " ++
          String.intercalate ", "
            (requiredMissing [("animal_id", Value.str "A1")] requiredFields))) :=
  create_missing_fields_rejected (ShelterState.mk [] [])
    [("animal_id", Value.str "A1")] none 0 true "oid0" false
    (by decide) (by decide)

/-- C4: every valid `create` succeeds with result `ok = ack` (the
collaborator's acknowledgment) and `inserted_id = oid`, appends exactly
one document to the primary collection, and that document carries
`created_timestamp = now` — unconditionally, overwriting any
caller-supplied value for that key — while every other field equals the
caller's value. -/
theorem create_success_contract (st : ShelterState) (data : Doc)
    (actor : Option String) (now : Nat) (ack : Bool) (oid : String) (auditFails : Bool)
    (hne : data ≠ []) (hreq : requiredMissing data requiredFields = []) :
    ∃ stored audits2,
      create st (PyArg.dict data) actor now ack oid auditFails =
        Except.ok (CreateResult.mk ack oid, stored,
          ShelterState.mk (st.animals ++ [stored]) audits2) ∧
      dget stored "created_timestamp" = some (Value.ts now) ∧
      ∀ k, k ≠ "created_timestamp" → dget stored k = dget data k := by
  have h1 : data.isEmpty = false := isEmpty_false_of_ne_nil hne
  refine ⟨setKey data "created_timestamp" (Value.ts now),
    _audit st.audits auditFails "CREATE"
      [("actor", actorValue actor), ("inserted_id", Value.str oid)] now, ?_, ?_, ?_⟩
  · simp [create, _require_dict, _validate_required_fields, h1, hreq]
  · exact dget_setKey_self data "created_timestamp" (Value.ts now)
  · intro k hk
    exact dget_setKey_ne data "created_timestamp" k (Value.ts now) hk

/-- C4 witness: a concrete valid record that even carries a caller-supplied
`created_timestamp` (the stale instant 99) is stored with the call-time
instant 7 instead, and `ok`/`inserted_id` reflect the collaborator. -/
theorem create_success_contract_witness :
    ∃ stored audits2,
      create (ShelterState.mk [] [])
          (PyArg.dict [("animal_id", Value.str "A1"),
                       ("animal_type", Value.str "Dog"),
                       ("breed", Value.str "Lab"),
                       ("created_timestamp", Value.ts 99)])
          none 7 true "oid1" false =
        Except.ok (CreateResult.mk true "oid1", stored,
          ShelterState.mk ([] ++ [stored]) audits2) ∧
      dget stored "created_timestamp" = some (Value.ts 7) ∧
      ∀ k, k ≠ "created_timestamp" →
        dget stored k =
          dget [("animal_id", Value.str "A1"),
                ("animal_type", Value.str "Dog"),
                ("breed", Value.str "Lab"),
                ("created_timestamp", Value.ts 99)] k :=
  create_success_contract (ShelterState.mk [] [])
    [("animal_id", Value.str "A1"), ("animal_type", Value.str "Dog"),
     ("breed", Value.str "Lab"), ("created_timestamp", Value.ts 99)]
    none 7 true "oid1" false (by decide) (by decide)

/-- The empty filter matches every document. -/
theorem filter_matchesDoc_nil (l : List Doc) :
    l.filter (fun d => matchesDoc [] d) = l := by
  simp [matchesDoc]

/-- C10: `read` validates only its query argument: a projection that is
not a dict (a list or a string) raises nothing and behaves exactly as if
no projection had been supplied, while a query of those shapes is
rejected with a `ValidationError`. -/
theorem read_validates_only_query (st : ShelterState) (query : Option PyArg)
    (limit : Int) (sf : Option String) (so : Int) (vs : List Value) (s : String) :
    read st query (some (PyArg.list vs)) limit sf so =
      read st query none limit sf so ∧
    read st query (some (PyArg.str s)) limit sf so =
      read st query none limit sf so ∧
    read st (some (PyArg.list vs)) none limit sf so =
      Except.error (RepoError.validationError "query must be a dict") ∧
    read st (some (PyArg.str s)) none limit sf so =
      Except.error (RepoError.validationError "query must be a dict") :=
  ⟨rfl, rfl, rfl, rfl⟩

/-- C6: `read` always returns a sequence (never an absent value): with no
arguments, or with an explicit empty filter, it returns every stored
document; an unlimited filtered read returns exactly the matching
documents; and with a positive limit it returns at most that many
documents, each of which matches the filter. -/
theorem read_contract (st : ShelterState) :
    read st none none 0 none 1 = Except.ok st.animals ∧
    read st (some (PyArg.dict [])) none 0 none 1 = Except.ok st.animals ∧
    (∀ q : Doc, read st (some (PyArg.dict q)) none 0 none 1 =
      Except.ok (st.animals.filter (fun d => matchesDoc q d))) ∧
    (∀ (q : Doc) (n : Int), 0 < n → ∀ r,
      read st (some (PyArg.dict q)) none n none 1 = Except.ok r →
      r.length ≤ n.toNat ∧ ∀ d ∈ r, matchesDoc q d = true) := by
  refine ⟨?_, ?_, ?_, ?_⟩
  · simp [read, filter_matchesDoc_nil]
  · simp [read, _require_dict, filter_matchesDoc_nil]
  · intro q
    rfl
  · intro q n hn r hr
    have hread : read st (some (PyArg.dict q)) none n none 1 =
        Except.ok ((st.animals.filter (fun d => matchesDoc q d)).take n.toNat) := by
      simp [read, _require_dict, hn]
    rw [hread] at hr
    injection hr with hr
    subst hr
    constructor
    · calc ((st.animals.filter (fun d => matchesDoc q d)).take n.toNat).length
          = min n.toNat (st.animals.filter (fun d => matchesDoc q d)).length :=
            List.length_take _ _
        _ ≤ n.toNat := min_le_left _ _
    · intro d hd
      have hdf : d ∈ st.animals.filter (fun d => matchesDoc q d) :=
        List.take_subset _ _ hd
      exact (List.mem_filter.mp hdf).2

/-- C6 witness: on a two-document collection, `read` with the Dog filter
and `limit=1` returns one document, it matches the filter, and the
length bound holds. -/
theorem read_contract_witness :
    read (ShelterState.mk
        [[("animal_type", Value.str "Cat")], [("animal_type", Value.str "Dog")]] [])
      (some (PyArg.dict [("animal_type", Value.str "Dog")])) none 1 none 1 =
      Except.ok [[("animal_type", Value.str "Dog")]] ∧
    ([[("animal_type", Value.str "Dog")]] : List Doc).length ≤ (1 : Int).toNat ∧
    ∀ d ∈ ([[("animal_type", Value.str "Dog")]] : List Doc),
      matchesDoc [("animal_type", Value.str "Dog")] d = true :=
  ⟨rfl,
    (read_contract (ShelterState.mk
        [[("animal_type", Value.str "Cat")], [("animal_type", Value.str "Dog")]] [])).2.2.2
      [("animal_type", Value.str "Dog")] 1 (by decide)
      [[("animal_type", Value.str "Dog")]] rfl⟩

/-- C7: for every mutating operation (`create`, `update`, `delete`) and
every input, the caller-observable outcome — returned result, mutated
caller mapping, and primary collection — is identical whether the
audit-collection write fails or succeeds: the failure is swallowed
inside `_audit`, never propagated, and never rolls back the primary
write. -/
theorem audit_failure_harmless (st : ShelterState) (data query nv : PyArg)
    (actor : Option String) (now : Nat) (ack upsert cd : Bool) (oid : String) :
    createView (create st data actor now ack oid true) =
      createView (create st data actor now ack oid false) ∧
    updateView (update st query nv actor now ack upsert oid true) =
      updateView (update st query nv actor now ack upsert oid false) ∧
    deleteView (delete st query actor now ack cd true) =
      deleteView (delete st query actor now ack cd false) := by
  refine ⟨?_, ?_, ?_⟩
  · cases h1 : _require_dict data "data" false with
    | error e => simp [create, h1]
    | ok doc0 =>
      cases h2 : _validate_required_fields doc0 requiredFields with
      | error e => simp [create, h1, h2]
      | ok u => simp [create, h1, h2, createView, Except.map]
  · cases h1 : _require_dict query "query" false with
    | error e => simp [update, h1]
    | ok q =>
      cases h2 : _require_dict nv "new_values" false with
      | error e => simp [update, h1, h2]
      | ok nv0 =>
        simp only [update, h1, h2]
        generalize (upsert &&
          decide ((st.animals.filter fun d => matchesDoc q d).length = 0)) = b
        cases b <;> simp [updateView, Except.map]
  · cases h1 : _require_dict query "query" false with
    | error e => simp [delete, h1]
    | ok q =>
      simp only [delete, h1]
      generalize (q.isEmpty && cd) = b
      cases b <;> simp [deleteView, Except.map]

/-- Keys of the empty document. -/
theorem keysOf_nil : keysOf [] = [] := rfl

/-- Keys of a cons cell. -/
theorem keysOf_cons (k : String) (v : Value) (d : Doc) :
    keysOf ((k, v) :: d) = k :: keysOf d := rfl

/-- The keys after an assignment are the assigned key plus the old keys. -/
theorem mem_keysOf_setKey_iff (d : Doc) (k k2 : String) (v : Value) :
    k2 ∈ keysOf (setKey d k v) ↔ k2 = k ∨ k2 ∈ keysOf d := by
  induction d with
  | nil => simp [setKey, keysOf_cons, keysOf_nil]
  | cons p rest ih =>
    obtain ⟨k1, v1⟩ := p
    by_cases h : k1 = k
    · subst h
      simp [setKey, keysOf_cons]
      try tauto
    · simp [setKey, h, keysOf_cons, ih]
      try tauto

/-- The assigned key is present after an assignment. -/
theorem mem_keysOf_setKey (d : Doc) (k : String) (v : Value) :
    k ∈ keysOf (setKey d k v) :=
  (mem_keysOf_setKey_iff d k k v).mpr (Or.inl rfl)

/-- C9: `create` and `update` mutate their caller-supplied mappings in
place: whenever they succeed, the caller's `data` mapping afterwards
contains a `created_timestamp` key and the caller's `new_values` mapping
afterwards contains a `last_modified_timestamp` key, both added by the
repository.  (The model returns the caller-visible mapping after the
call as the middle component, since the Python code aliases and mutates
the argument dict.) -/
theorem timestamps_mutate_caller_mappings (st : ShelterState)
    (data query nv : PyArg) (actor : Option String) (now : Nat)
    (ack upsert : Bool) (oid : String) (af : Bool) :
    (∀ out dataAfter st2,
      create st data actor now ack oid af = Except.ok (out, dataAfter, st2) →
      hasKey dataAfter "created_timestamp" = true) ∧
    (∀ out nvAfter st2,
      update st query nv actor now ack upsert oid af =
        Except.ok (out, nvAfter, st2) →
      hasKey nvAfter "last_modified_timestamp" = true) := by
  constructor
  · intro out dataAfter st2 h
    cases h1 : _require_dict data "data" false with
    | error e => simp [create, h1] at h
    | ok doc0 =>
      cases h2 : _validate_required_fields doc0 requiredFields with
      | error e => simp [create, h1, h2] at h
      | ok u =>
        simp only [create, h1, h2, Except.ok.injEq, Prod.mk.injEq] at h
        obtain ⟨h3, h4, h5⟩ := h
        subst h4
        simp [hasKey, mem_keysOf_setKey]
  · intro out nvAfter st2 h
    cases h1 : _require_dict query "query" false with
    | error e => simp [update, h1] at h
    | ok q =>
      cases h2 : _require_dict nv "new_values" false with
      | error e => simp [update, h1, h2] at h
      | ok nv0 =>
        simp only [update, h1, h2] at h
        split at h <;>
        · simp only [Except.ok.injEq, Prod.mk.injEq] at h
          obtain ⟨h3, h4, h5⟩ := h
          subst h4
          simp [hasKey, mem_keysOf_setKey]

/-- C9 witness: after the concrete successful `create` and `update`
below, the caller-visible mappings contain the injected timestamp keys. -/
theorem timestamps_mutate_caller_mappings_witness :
    hasKey (setKey [("animal_id", Value.str "A1"), ("animal_type", Value.str "Dog"),
        ("breed", Value.str "Lab")] "created_timestamp" (Value.ts 5))
      "created_timestamp" = true ∧
    hasKey (setKey [("name", Value.str "Rex")] "last_modified_timestamp" (Value.ts 5))
      "last_modified_timestamp" = true :=
  ⟨(timestamps_mutate_caller_mappings (ShelterState.mk [] [])
      (PyArg.dict [("animal_id", Value.str "A1"), ("animal_type", Value.str "Dog"),
        ("breed", Value.str "Lab")])
      (PyArg.dict [("animal_id", Value.str "A1")])
      (PyArg.dict [("name", Value.str "Rex")])
      none 5 true false "oid9" false).1 _ _ _ rfl,
   (timestamps_mutate_caller_mappings (ShelterState.mk [] [])
      (PyArg.dict [("animal_id", Value.str "A1"), ("animal_type", Value.str "Dog"),
        ("breed", Value.str "Lab")])
      (PyArg.dict [("animal_id", Value.str "A1")])
      (PyArg.dict [("name", Value.str "Rex")])
      none 5 true false "oid9" false).2 _ _ _ rfl⟩

/-- Unfolding one assignment of a `$set` merge. -/
theorem applySet_cons (k : String) (v : Value) (rest : Doc) (d : Doc) :
    applySet ((k, v) :: rest) d = applySet rest (setKey d k v) := rfl

/-- A `$set` merge leaves every field it does not name unchanged. -/
theorem dget_applySet_not_mem (nv : Doc) (d : Doc) (k : String)
    (h : k ∉ keysOf nv) : dget (applySet nv d) k = dget d k := by
  induction nv generalizing d with
  | nil => rfl
  | cons p rest ih =>
    obtain ⟨k1, v1⟩ := p
    rw [keysOf_cons] at h
    simp only [List.mem_cons, not_or] at h
    rw [applySet_cons, ih (setKey d k1 v1) h.2]
    exact dget_setKey_ne d k1 k v1 h.1

/-- Assignment preserves uniqueness of keys. -/
theorem keysOf_setKey_nodup (d : Doc) (k : String) (v : Value)
    (h : (keysOf d).Nodup) : (keysOf (setKey d k v)).Nodup := by
  induction d with
  | nil => simp [setKey, keysOf_cons, keysOf_nil]
  | cons p rest ih =>
    obtain ⟨k1, v1⟩ := p
    rw [keysOf_cons, List.nodup_cons] at h
    by_cases hk : k1 = k
    · subst hk
      have hset : setKey ((k1, v1) :: rest) k1 v = (k1, v) :: rest := by
        simp [setKey]
      rw [hset, keysOf_cons, List.nodup_cons]
      exact h
    · have h1 : k1 ∉ keysOf (setKey rest k v) := by
        intro hmem
        rcases (mem_keysOf_setKey_iff rest k k1 v).mp hmem with h2 | h2
        · exact hk h2
        · exact h.1 h2
      simp only [setKey, if_neg hk, keysOf_cons, List.nodup_cons]
      exact ⟨h1, ih h.2⟩

/-- On a uniquely-keyed merge document, a merged field reads back the
merge document's value. -/
theorem dget_applySet_mem_nodup (nv : Doc) (d : Doc) (k : String)
    (hnd : (keysOf nv).Nodup) (hmem : k ∈ keysOf nv) :
    dget (applySet nv d) k = dget nv k := by
  induction nv generalizing d with
  | nil => simp [keysOf_nil] at hmem
  | cons p rest ih =>
    obtain ⟨k1, v1⟩ := p
    rw [applySet_cons]
    rw [keysOf_cons] at hmem hnd
    rw [List.nodup_cons] at hnd
    by_cases hk : k = k1
    · subst hk
      rw [dget_applySet_not_mem rest (setKey d k v1) k hnd.1,
        dget_setKey_self]
      simp [dget]
    · rcases List.mem_cons.mp hmem with h | h
      · exact absurd h hk
      · rw [ih (setKey d k1 v1) hnd.2 h]
        simp [dget, Ne.symm hk]

/-- C5: a successful `update(q, nv)` (non-empty `q`, uniquely-keyed
non-empty `nv`, default `upsert=false`) is a partial field merge: the
collection keeps its length; every non-matching document is unchanged;
every matching document gets `last_modified_timestamp = now` (the
call-time instant, overwriting any caller-supplied value for that key in
`nv`), and every one of its fields not named in `nv` and distinct from
`last_modified_timestamp` keeps its value. -/
theorem update_partial_merge (st : ShelterState) (q nv : Doc)
    (actor : Option String) (now : Nat) (ack : Bool) (oid : String) (af : Bool)
    (hq : q ≠ []) (hnv : nv ≠ []) (hkeys : (keysOf nv).Nodup) :
    ∃ out nvAfter st2,
      update st (PyArg.dict q) (PyArg.dict nv) actor now ack false oid af =
        Except.ok (out, nvAfter, st2) ∧
      st2.animals.length = st.animals.length ∧
      ∀ i (h1 : i < st.animals.length) (h2 : i < st2.animals.length),
        (matchesDoc q (st.animals.get ⟨i, h1⟩) = false →
          st2.animals.get ⟨i, h2⟩ = st.animals.get ⟨i, h1⟩) ∧
        (matchesDoc q (st.animals.get ⟨i, h1⟩) = true →
          dget (st2.animals.get ⟨i, h2⟩) "last_modified_timestamp" =
            some (Value.ts now) ∧
          ∀ k, k ∉ keysOf nv → k ≠ "last_modified_timestamp" →
            dget (st2.animals.get ⟨i, h2⟩) k =
              dget (st.animals.get ⟨i, h1⟩) k) := by
  have hne1 : q.isEmpty = false := isEmpty_false_of_ne_nil hq
  have hne2 : nv.isEmpty = false := isEmpty_false_of_ne_nil hnv
  refine ⟨UpdateResult.mk ack
      ((st.animals.filter fun d => matchesDoc q d).length)
      ((st.animals.filter fun d => matchesDoc q d &&
        decide (applySet (setKey nv "last_modified_timestamp" (Value.ts now)) d ≠ d)).length)
      none,
    setKey nv "last_modified_timestamp" (Value.ts now),
    ShelterState.mk
      (st.animals.map fun d =>
        if matchesDoc q d then
          applySet (setKey nv "last_modified_timestamp" (Value.ts now)) d
        else d)
      (_audit st.audits af "UPDATE"
        [("actor", actorValue actor),
         ("matched", Value.int (Int.ofNat (st.animals.filter fun d => matchesDoc q d).length)),
         ("modified", Value.int (Int.ofNat (st.animals.filter fun d => matchesDoc q d &&
           decide (applySet (setKey nv "last_modified_timestamp" (Value.ts now)) d ≠ d)).length))]
        now),
    ?_, ?_, ?_⟩
  · simp [update, _require_dict, hne1, hne2]
  · simp
  · intro i h1 h2
    have hget : (st.animals.map fun d =>
        if matchesDoc q d then
          applySet (setKey nv "last_modified_timestamp" (Value.ts now)) d
        else d).get ⟨i, h2⟩ =
        (fun d => if matchesDoc q d then
          applySet (setKey nv "last_modified_timestamp" (Value.ts now)) d
        else d) (st.animals.get ⟨i, h1⟩) := by
      simp [List.get_eq_getElem, List.getElem_map]
    rw [hget]
    generalize st.animals.get ⟨i, h1⟩ = d
    constructor
    · intro hm
      simp [hm]
    · intro hm
      simp only [hm, eq_self_iff_true, if_true]
      refine ⟨?_, ?_⟩
      · rw [dget_applySet_mem_nodup _ _ _
            (keysOf_setKey_nodup nv "last_modified_timestamp" (Value.ts now) hkeys)
            (mem_keysOf_setKey nv "last_modified_timestamp" (Value.ts now))]
        exact dget_setKey_self nv "last_modified_timestamp" (Value.ts now)
      · intro k hk hk2
        apply dget_applySet_not_mem
        intro hmem
        rcases (mem_keysOf_setKey_iff nv "last_modified_timestamp" k
          (Value.ts now)).mp hmem with h3 | h3
        · exact hk2 h3
        · exact hk h3

/-- C5 witness: concrete two-document collection where only the Dog
record matches; the theorem's hypotheses hold by computation. -/
theorem update_partial_merge_witness :
    ∃ out nvAfter st2,
      update (ShelterState.mk
          [[("animal_type", Value.str "Dog"), ("name", Value.str "Rex")],
           [("animal_type", Value.str "Cat"), ("name", Value.str "Tom")]] [])
        (PyArg.dict [("animal_type", Value.str "Dog")])
        (PyArg.dict [("name", Value.str "Fido")]) none 9 true false "u1" false =
        Except.ok (out, nvAfter, st2) ∧
      st2.animals.length = (ShelterState.mk
          [[("animal_type", Value.str "Dog"), ("name", Value.str "Rex")],
           [("animal_type", Value.str "Cat"), ("name", Value.str "Tom")]] []).animals.length ∧
      ∀ i (h1 : i < (ShelterState.mk
          [[("animal_type", Value.str "Dog"), ("name", Value.str "Rex")],
           [("animal_type", Value.str "Cat"), ("name", Value.str "Tom")]] []).animals.length)
        (h2 : i < st2.animals.length),
        (matchesDoc [("animal_type", Value.str "Dog")]
            ((ShelterState.mk
          [[("animal_type", Value.str "Dog"), ("name", Value.str "Rex")],
           [("animal_type", Value.str "Cat"), ("name", Value.str "Tom")]] []).animals.get ⟨i, h1⟩) = false →
          st2.animals.get ⟨i, h2⟩ = (ShelterState.mk
          [[("animal_type", Value.str "Dog"), ("name", Value.str "Rex")],
           [("animal_type", Value.str "Cat"), ("name", Value.str "Tom")]] []).animals.get ⟨i, h1⟩) ∧
        (matchesDoc [("animal_type", Value.str "Dog")]
            ((ShelterState.mk
          [[("animal_type", Value.str "Dog"), ("name", Value.str "Rex")],
           [("animal_type", Value.str "Cat"), ("name", Value.str "Tom")]] []).animals.get ⟨i, h1⟩) = true →
          dget (st2.animals.get ⟨i, h2⟩) "last_modified_timestamp" =
            some (Value.ts 9) ∧
          ∀ k, k ∉ keysOf [("name", Value.str "Fido")] →
            k ≠ "last_modified_timestamp" →
            dget (st2.animals.get ⟨i, h2⟩) k =
              dget ((ShelterState.mk
          [[("animal_type", Value.str "Dog"), ("name", Value.str "Rex")],
           [("animal_type", Value.str "Cat"), ("name", Value.str "Tom")]] []).animals.get ⟨i, h1⟩) k) :=
  update_partial_merge (ShelterState.mk
      [[("animal_type", Value.str "Dog"), ("name", Value.str "Rex")],
       [("animal_type", Value.str "Cat"), ("name", Value.str "Tom")]] [])
    [("animal_type", Value.str "Dog")] [("name", Value.str "Fido")]
    none 9 true "u1" false (by decide) (by decide) (by decide)

/-- Membership after an insertion. -/
theorem insertSorted_mem (le : Doc → Doc → Bool) (d x : Doc) (l : List Doc) :
    x ∈ insertSorted le d l ↔ x = d ∨ x ∈ l := by
  induction l with
  | nil => simp [insertSorted]
  | cons y ys ih =>
    by_cases h : le d y = true
    · simp [insertSorted, h]
      try tauto
    · simp [insertSorted, h, ih]
      try tauto

/-- Sorting permutes membership. -/
theorem sortDocs_mem (le : Doc → Doc → Bool) (x : Doc) (l : List Doc) :
    x ∈ sortDocs le l ↔ x ∈ l := by
  induction l with
  | nil => simp [sortDocs]
  | cons d ds ih => simp [sortDocs, insertSorted_mem, ih]

/-- Insertion grows the length by one. -/
theorem insertSorted_length (le : Doc → Doc → Bool) (d : Doc) (l : List Doc) :
    (insertSorted le d l).length = l.length + 1 := by
  induction l with
  | nil => rfl
  | cons y ys ih =>
    by_cases h : le d y = true
    · simp [insertSorted, h]
    · simp [insertSorted, h, ih]

/-- Sorting preserves the length. -/
theorem sortDocs_length (le : Doc → Doc → Bool) (l : List Doc) :
    (sortDocs le l).length = l.length := by
  induction l with
  | nil => rfl
  | cons d ds ih => simp [sortDocs, insertSorted_length, ih]

/-- Value order on two timestamps is the numeric order. -/
theorem valLeB_ts (a b : Nat) :
    valLeB (some (Value.ts a)) (some (Value.ts b)) = decide (a ≤ b) := rfl

/-- The descending comparator on two timestamp-keyed documents compares
the timestamps in reverse. -/
theorem docLe_neg_ts (f : String) (a b : Doc) (ta tb : Nat)
    (ha : dget a f = some (Value.ts ta)) (hb : dget b f = some (Value.ts tb)) :
    docLe f (-1) a b = decide (tb ≤ ta) := by
  rw [show docLe f (-1) a b = valLeB (dget b f) (dget a f) from by simp [docLe]]
  rw [ha, hb, valLeB_ts]

/-- Inserting into a timestamp-keyed list whose head dominates it keeps
a dominating head. -/
theorem insertSorted_head_desc (f : String) (d : Doc) (l : List Doc)
    (hd : ∃ t, dget d f = some (Value.ts t))
    (hl : ∀ x ∈ l, ∃ t, dget x f = some (Value.ts t))
    (hhead : ∀ h t2, l = h :: t2 → ∀ x ∈ l, docLe f (-1) h x = true) :
    ∀ h t2, insertSorted (docLe f (-1)) d l = h :: t2 →
      ∀ x ∈ insertSorted (docLe f (-1)) d l, docLe f (-1) h x = true := by
  obtain ⟨td, htd⟩ := hd
  cases l with
  | nil =>
    intro h t2 heq x hx
    simp only [insertSorted, List.cons.injEq] at heq
    obtain ⟨h1, h2⟩ := heq
    simp only [insertSorted, List.mem_singleton] at hx
    rw [← h1, hx]
    rw [docLe_neg_ts f d d td td htd htd]
    exact decide_eq_true (Nat.le_refl td)
  | cons y ys =>
    obtain ⟨ty, hty⟩ := hl y (List.mem_cons_self y ys)
    intro h t2 heq x hx
    rw [show insertSorted (docLe f (-1)) d (y :: ys) =
        if docLe f (-1) d y = true then d :: y :: ys
        else y :: insertSorted (docLe f (-1)) d ys from rfl] at heq hx
    by_cases hcase : docLe f (-1) d y = true
    · rw [if_pos hcase] at heq hx
      simp only [List.cons.injEq] at heq
      obtain ⟨h1, h2⟩ := heq
      rw [← h1]
      rcases List.mem_cons.mp hx with h3 | h3
      · rw [h3]
        rw [docLe_neg_ts f d d td td htd htd]
        exact decide_eq_true (Nat.le_refl td)
      · rcases List.mem_cons.mp h3 with h4 | h4
        · rw [h4]
          exact hcase
        · obtain ⟨tx, htx⟩ := hl x (List.mem_cons_of_mem y h4)
          have hyx := hhead y ys rfl x (List.mem_cons_of_mem y h4)
          rw [docLe_neg_ts f y x ty tx hty htx] at hyx
          rw [docLe_neg_ts f d y td ty htd hty] at hcase
          rw [docLe_neg_ts f d x td tx htd htx]
          exact decide_eq_true
            (Nat.le_trans (of_decide_eq_true hyx) (of_decide_eq_true hcase))
    · rw [if_neg hcase] at heq hx
      simp only [List.cons.injEq] at heq
      obtain ⟨h1, h2⟩ := heq
      rw [← h1]
      rcases List.mem_cons.mp hx with h3 | h3
      · rw [h3]
        rw [docLe_neg_ts f y y ty ty hty hty]
        exact decide_eq_true (Nat.le_refl ty)
      · rcases (insertSorted_mem (docLe f (-1)) d x ys).mp h3 with h4 | h4
        · rw [h4]
          rw [docLe_neg_ts f d y td ty htd hty] at hcase
          rw [docLe_neg_ts f y d ty td hty htd]
          have hnot : ¬ (ty ≤ td) := fun hc => hcase (decide_eq_true hc)
          exact decide_eq_true (le_of_not_le hnot)
        · exact hhead y ys rfl x (List.mem_cons_of_mem y h4)

/-- The head of the descending sort of a timestamp-keyed list dominates
every element of the list. -/
theorem sortDesc_head_max (f : String) (l : List Doc)
    (hl : ∀ x ∈ l, ∃ t, dget x f = some (Value.ts t)) :
    ∀ h t2, sortDocs (docLe f (-1)) l = h :: t2 →
      ∀ x ∈ l, docLe f (-1) h x = true := by
  induction l with
  | nil =>
    intro h t2 heq
    simp [sortDocs] at heq
  | cons d ds ih =>
    intro h t2 heq x hx
    rw [show sortDocs (docLe f (-1)) (d :: ds) =
        insertSorted (docLe f (-1)) d (sortDocs (docLe f (-1)) ds) from rfl] at heq
    have hsub : ∀ y ∈ sortDocs (docLe f (-1)) ds,
        ∃ t, dget y f = some (Value.ts t) := by
      intro y hy
      exact hl y (List.mem_cons_of_mem d ((sortDocs_mem _ _ _).mp hy))
    have hhead : ∀ h2 t3, sortDocs (docLe f (-1)) ds = h2 :: t3 →
        ∀ y ∈ sortDocs (docLe f (-1)) ds, docLe f (-1) h2 y = true := by
      intro h2 t3 heq2 y hy
      exact ih (fun z hz => hl z (List.mem_cons_of_mem d hz)) h2 t3 heq2 y
        ((sortDocs_mem _ _ _).mp hy)
    have hall := insertSorted_head_desc f d (sortDocs (docLe f (-1)) ds)
      (hl d (List.mem_cons_self d ds)) hsub hhead h t2 heq
    apply hall
    rw [insertSorted_mem, sortDocs_mem]
    rcases List.mem_cons.mp hx with h3 | h3
    · exact Or.inl h3
    · exact Or.inr h3

/-- A filter whose predicate keeps every pair with a given key preserves
lookups of that key. -/
theorem dget_filter_keep (p : String × Value → Bool) (d : Doc) (k : String)
    (hp : ∀ v, p (k, v) = true) : dget (d.filter p) k = dget d k := by
  induction d with
  | nil => rfl
  | cons kv rest ih =>
    obtain ⟨k1, v1⟩ := kv
    rw [List.filter_cons]
    by_cases hk : k1 = k
    · subst hk
      simp [hp, dget]
    · by_cases hpk : p (k1, v1) = true
      · simp [hpk, dget, hk, ih]
      · simp [hpk, dget, hk, ih]

/-- The `created_timestamp` inclusion projection used by `stats` keeps
the `created_timestamp` value. -/
theorem dget_applyProjection_keep (d : Doc) :
    dget (applyProjection [("created_timestamp", Value.int 1)] d)
      "created_timestamp" = dget d "created_timestamp" := by
  have hc : (([("created_timestamp", Value.int 1)] : Doc).any
      (fun kv => decide (kv.1 ≠ "_id") && decide (kv.2 = Value.int 1))) = true := by
    decide
  unfold applyProjection
  rw [if_pos hc]
  apply dget_filter_keep
  intro v
  simp [dget]

/-- C8: on a collection whose documents all carry a timestamp-valued
`created_timestamp` (every document the repository itself creates does),
`stats` returns the collection's document count, and a
`latest_created_timestamp` that is null exactly when the collection is
empty and otherwise equals the `created_timestamp` of the most recently
created document (it is attained by a stored document and dominates
every stored document's `created_timestamp`). -/
theorem stats_contract (st : ShelterState)
    (hts : ∀ d ∈ st.animals, ∃ t, dget d "created_timestamp" = some (Value.ts t)) :
    (stats st).count = st.animals.length ∧
    ((stats st).latest_created_timestamp = none ↔ st.animals = []) ∧
    (st.animals ≠ [] → ∃ t,
      (stats st).latest_created_timestamp = some (Value.ts t) ∧
      (∃ d ∈ st.animals, dget d "created_timestamp" = some (Value.ts t)) ∧
      ∀ d ∈ st.animals, ∀ u,
        dget d "created_timestamp" = some (Value.ts u) → u ≤ t) := by
  cases hs : sortByField "created_timestamp" (-1) st.animals with
  | nil =>
    have hnil : st.animals = [] := by
      have hlen := sortDocs_length (docLe "created_timestamp" (-1)) st.animals
      rw [show sortByField "created_timestamp" (-1) st.animals =
          sortDocs (docLe "created_timestamp" (-1)) st.animals from rfl] at hs
      rw [hs] at hlen
      exact List.length_eq_zero.mp hlen.symm
    refine ⟨rfl, ?_, ?_⟩
    · simp [stats, filter_matchesDoc_nil, hs, hnil, sortByField, sortDocs]
    · intro hne
      exact absurd hnil hne
  | cons h0 t0 =>
    have hmem : h0 ∈ st.animals := by
      have hm : h0 ∈ sortByField "created_timestamp" (-1) st.animals := by
        rw [hs]
        exact List.mem_cons_self h0 t0
      exact (sortDocs_mem _ _ _).mp hm
    obtain ⟨th, hth⟩ := hts h0 hmem
    have hlatest : (stats st).latest_created_timestamp = some (Value.ts th) := by
      simp [stats, filter_matchesDoc_nil, hs, dget_applyProjection_keep, hth]
    refine ⟨rfl, ?_, ?_⟩
    · rw [hlatest]
      constructor
      · intro hfalse
        cases hfalse
      · intro hfalse
        rw [hfalse] at hmem
        cases hmem
    · intro hne
      refine ⟨th, hlatest, ⟨h0, hmem, hth⟩, ?_⟩
      intro d hd u hu
      have hsort2 : sortDocs (docLe "created_timestamp" (-1)) st.animals =
          h0 :: t0 := hs
      have hmax := sortDesc_head_max "created_timestamp" st.animals hts
        h0 t0 hsort2 d hd
      rw [docLe_neg_ts "created_timestamp" h0 d th u hth hu] at hmax
      exact of_decide_eq_true hmax

/-- C8 witness: a three-document collection with timestamps 3, 7, 5;
`stats` reports count 3 and latest timestamp 7, attained by the second
document and dominating all three. -/
theorem stats_contract_witness :
    (stats (ShelterState.mk
        [[("created_timestamp", Value.ts 3)], [("created_timestamp", Value.ts 7)],
         [("created_timestamp", Value.ts 5)]] [])).count =
      (ShelterState.mk
        [[("created_timestamp", Value.ts 3)], [("created_timestamp", Value.ts 7)],
         [("created_timestamp", Value.ts 5)]] []).animals.length ∧
    ((stats (ShelterState.mk
        [[("created_timestamp", Value.ts 3)], [("created_timestamp", Value.ts 7)],
         [("created_timestamp", Value.ts 5)]] [])).latest_created_timestamp = none ↔
      (ShelterState.mk
        [[("created_timestamp", Value.ts 3)], [("created_timestamp", Value.ts 7)],
         [("created_timestamp", Value.ts 5)]] []).animals = []) ∧
    ((ShelterState.mk
        [[("created_timestamp", Value.ts 3)], [("created_timestamp", Value.ts 7)],
         [("created_timestamp", Value.ts 5)]] []).animals ≠ [] → ∃ t,
      (stats (ShelterState.mk
        [[("created_timestamp", Value.ts 3)], [("created_timestamp", Value.ts 7)],
         [("created_timestamp", Value.ts 5)]] [])).latest_created_timestamp =
        some (Value.ts t) ∧
      (∃ d ∈ (ShelterState.mk
        [[("created_timestamp", Value.ts 3)], [("created_timestamp", Value.ts 7)],
         [("created_timestamp", Value.ts 5)]] []).animals,
        dget d "created_timestamp" = some (Value.ts t)) ∧
      ∀ d ∈ (ShelterState.mk
        [[("created_timestamp", Value.ts 3)], [("created_timestamp", Value.ts 7)],
         [("created_timestamp", Value.ts 5)]] []).animals, ∀ u,
        dget d "created_timestamp" = some (Value.ts u) → u ≤ t) :=
  stats_contract (ShelterState.mk
      [[("created_timestamp", Value.ts 3)], [("created_timestamp", Value.ts 7)],
       [("created_timestamp", Value.ts 5)]] [])
    (by
      intro d hd
      simp only [List.mem_cons, List.not_mem_nil, or_false] at hd
      rcases hd with rfl | rfl | rfl
      · exact ⟨3, rfl⟩
      · exact ⟨7, rfl⟩
      · exact ⟨5, rfl⟩)

/-- C1: calling `delete` with an empty query mapping and `confirm_delete`
left at its default `true` fails with a `ValidationError` for every
collection state; the error return carries no successor state, so no
document of the primary collection is deleted.  (In the source the error
is raised by `_require_dict`, before `delete_many` could be reached.) -/
theorem delete_empty_query_rejected (st : ShelterState) (actor : Option String)
    (now : Nat) (ack : Bool) (auditFails : Bool) :
    delete st (PyArg.dict []) actor now ack true auditFails =
      Except.error (RepoError.validationError "query must be a non-empty dict") := by
  rfl

/-- C2: evaluation of the code at the claim's input: even with the
explicit override `confirm_delete = false`, `delete` on an empty query
mapping still fails with `ValidationError`, because `_require_dict`
rejects the empty dict before the `confirm_delete` guard is consulted.
The advertised override (docstring and error message both say to pass
`confirm_delete=False`) is therefore unreachable for the empty query. -/
theorem delete_override_still_rejected (st : ShelterState) (actor : Option String)
    (now : Nat) (ack : Bool) (auditFails : Bool) :
    delete st (PyArg.dict []) actor now ack false auditFails =
      Except.error (RepoError.validationError "query must be a non-empty dict") := by
  rfl

end AnimalShelter
